import Mathlib

/-!
Verification of the lazy validated singleton primitive in
`src/include/Singleton.h` (namespace `Singleton`).

Shallow embedding conventions:

* An `Instance` of the wrapped type `T` is identified by a natural-number id;
  ids are allocated by a counter (`nextId`), so two distinct constructions
  yield distinct ids (identity of `std::shared_ptr`-managed objects).
* `Handle = std::shared_ptr<T>` is modelled as `Option Nat`: `none` is the
  null handle (`return {}` / default-constructed `shared_ptr`), `some i`
  a handle owning instance `i`.
* The static per-type state of `Wrapper<T, keepalive>` is a `WState`:
  `weakSlot` embeds `weak_instance_handle_` (the id it refers to, if any),
  `keepSlot` embeds `keepalive_handle_`, `extRefs` is the multiset of ids
  of handles held by external callers (strong references outside the
  wrapper), `nextId` the allocation counter and `mkLog` a log of every
  `std::make_shared<T>(args...)` call, newest first, recording
  `(id, constructor argument)`.  Constructor argument packs are modelled
  as a single `Nat`.
* `weak_ptr::lock()` succeeds exactly when some strong owner of the
  referenced instance still exists (`aliveB`); an instance with no strong
  owner is destroyed, so a handle to it can never be produced again.
* `instance_impl` reads the weak slot twice: once before taking
  `instance_lock_` and once after.  To embed the race window the function
  takes the state `s0` observed at the unlocked fast check and the state
  `s1` observed under the mutex; a purely sequential call is `s0 = s1`.
* The wrapped type's behaviour is a parameter: `okF a` is the value
  `instanceOk()` returns on an instance constructed with argument `a`, and
  `resAny a` the `std::any` that `instanceResult()` returns on it.
  `dynamic_cast<Check*>` / `dynamic_cast<Result*>` succeed, as guaranteed
  by the `std::is_base_of_v` constraints selecting the overloads.
* `std::any` is a closed universe `AnyVal` of tagged values, large enough
  for the result kinds the repository uses; `std::any_cast<R>` throwing
  `std::bad_any_cast` is modelled as `Except.error`.
* The Boolean outputs `okQueried` / `resQueried` instrument whether the
  call invoked `instanceOk()` / `instanceResult()`; they have no effect on
  the computed state and come verbatim from the call sites in the source.
-/

namespace SingletonSpec

/-- Closed universe of result types `ResultT` usable with
`Singleton::CheckWithResult` (numeric codes, strings, flags). -/
inductive Ty where
  | tint
  | tstr
  | tbool
deriving DecidableEq, Repr

/-- Interpretation of a result-type tag as a Lean type. -/
def Ty.interp : Ty → Type
  | .tint => Int
  | .tstr => String
  | .tbool => Bool

/-- Model of `std::any`: a value together with its dynamic type tag. -/
inductive AnyVal where
  | aint : Int → AnyVal
  | astr : String → AnyVal
  | abool : Bool → AnyVal

/-- Dynamic type tag of a `std::any` value. -/
def AnyVal.tag : AnyVal → Ty
  | .aint _ => .tint
  | .astr _ => .tstr
  | .abool _ => .tbool

/-- Model of `std::any_cast<R>(a)`: returns the stored value when the
dynamic type matches `R`, otherwise throws `std::bad_any_cast`
(modelled as `Except.error`). -/
def anyCast : (τ : Ty) → AnyVal → Except Unit τ.interp
  | .tint, .aint v => .ok v
  | .tstr, .astr v => .ok v
  | .tbool, .abool v => .ok v
  | .tint, .astr _ => .error ()
  | .tint, .abool _ => .error ()
  | .tstr, .aint _ => .error ()
  | .tstr, .abool _ => .error ()
  | .tbool, .aint _ => .error ()
  | .tbool, .astr _ => .error ()

namespace CheckWithResult

/-- `Singleton::CheckWithResult<ResultT>::getResultValue` (Singleton.h
lines 57-59): `return std::any_cast<ResultT>(result);`. -/
def getResultValue (τ : Ty) (result : AnyVal) : Except Unit τ.interp :=
  anyCast τ result

/-- `Singleton::CheckWithResult<ResultT>::instanceResult` (Singleton.h
line 70): the output of `instanceResultValue()` wrapped as a `std::any`. -/
def instanceResult : (τ : Ty) → τ.interp → AnyVal
  | .tint, v => .aint v
  | .tstr, v => .astr v
  | .tbool, v => .abool v

end CheckWithResult

/-- Static state of `Singleton::Wrapper<T, keepalive>` together with the
external strong references and the construction history. -/
structure WState where
  /-- Id referenced by `weak_instance_handle_` (`none` = empty weak ptr). -/
  weakSlot : Option Nat
  /-- Id owned by `keepalive_handle_` (`none` = null handle). -/
  keepSlot : Option Nat
  /-- Multiset of ids of handles held by external callers. -/
  extRefs : List Nat
  /-- Next fresh instance id (every allocated id is below it). -/
  nextId : Nat
  /-- Log of `make_shared<T>` calls, newest first: `(id, ctor argument)`. -/
  mkLog : List (Nat × Nat)
deriving DecidableEq, Repr

/-- State before any `instance()` call: empty weak slot, null keepalive
handle, no external handles, nothing constructed. -/
def initState : WState := ⟨none, none, [], 0, []⟩

/-- Whether instance `i` still has a strong owner (an external handle or
the keepalive handle); a `shared_ptr`-managed object is destroyed exactly
when this becomes false. -/
def aliveB (s : WState) (i : Nat) : Bool :=
  decide (i ∈ s.extRefs) || decide (s.keepSlot = some i)

/-- Model of `weak_instance_handle_.lock()`: yields a handle to the
referenced instance when it is still alive, a null handle otherwise. -/
def lockWeak (s : WState) : Option Nat :=
  match s.weakSlot with
  | some i => if aliveB s i then some i else none
  | none => none

/-- Return value of `instance_impl` (Singleton.h lines 116-131): the
handle, whether `instance_lock_` was handed back locked (i.e. a new
instance was constructed), and the resulting state. -/
structure ImplOut where
  handle : Option Nat
  locked : Bool
  st : WState
deriving DecidableEq, Repr

/-- `Singleton::Wrapper::instance_impl` (Singleton.h lines 116-131).
`s0` is the state observed at the unlocked fast check (line 117), `s1`
the state observed after taking `instance_lock_` (line 124); in a
sequential execution `s0 = s1`. -/
def instance_impl (s0 s1 : WState) (arg : Nat) : ImplOut :=
  match lockWeak s0 with
  | some i => ⟨some i, false, s0⟩
  | none =>
    match lockWeak s1 with
    | some i => ⟨some i, false, s1⟩
    | none =>
      ⟨some s1.nextId, true,
        { s1 with nextId := s1.nextId + 1,
                  mkLog := (s1.nextId, arg) :: s1.mkLog }⟩

/-- Return value of an `instance()` overload returning a plain `Handle`,
instrumented with whether `instanceOk()` / `instanceResult()` were
invoked during the call. -/
structure CallOut where
  handle : Option Nat
  okQueried : Bool
  resQueried : Bool
  st : WState
deriving DecidableEq, Repr

/-- `Singleton::Wrapper::instance`, non-`Check` overload (Singleton.h
lines 143-155): publish unconditionally when a new instance was
constructed (the lock was handed back), also into `keepalive_handle_`
when the `keepalive` template parameter is true. -/
def instanceNC (keepalive : Bool) (s0 s1 : WState) (arg : Nat) : CallOut :=
  let o := instance_impl s0 s1 arg
  if o.locked then
    { handle := o.handle, okQueried := false, resQueried := false,
      st := { o.st with
              weakSlot := o.handle,
              keepSlot := if keepalive then o.handle else o.st.keepSlot } }
  else
    { handle := o.handle, okQueried := false, resQueried := false, st := o.st }

/-- `Singleton::Wrapper::instance`, `Check`-only overload (Singleton.h
lines 170-189): on a fresh construction, query `instanceOk()`; publish on
success, otherwise discard the instance and `return {}` (null handle).
`okF a` is what `instanceOk()` returns on an instance constructed with
argument `a`; the `dynamic_cast<Check*>` succeeds since the overload
requires `std::is_base_of_v<Check, T>`. -/
def instanceCk (keepalive : Bool) (okF : Nat → Bool) (s0 s1 : WState)
    (arg : Nat) : CallOut :=
  let o := instance_impl s0 s1 arg
  if o.locked then
    match o.handle with
    | some i =>
      if okF arg then
        { handle := some i, okQueried := true, resQueried := false,
          st := { o.st with
                  weakSlot := some i,
                  keepSlot := if keepalive then some i else o.st.keepSlot } }
      else
        { handle := none, okQueried := true, resQueried := false, st := o.st }
    | none =>
      { handle := none, okQueried := false, resQueried := false, st := o.st }
  else
    { handle := o.handle, okQueried := false, resQueried := false, st := o.st }

/-- Return value of the `Check`+`Result` overload:
`std::variant<Handle, std::any>`. -/
inductive CROut where
  | handle : Option Nat → CROut
  | failure : AnyVal → CROut

/-- Return value of the `Check`+`Result` overload together with the
instrumentation and the resulting state. -/
structure CallOutR where
  ret : CROut
  okQueried : Bool
  resQueried : Bool
  st : WState

/-- `Singleton::Wrapper::instance`, `Check`+`Result` overload
(Singleton.h lines 205-229): on a fresh construction, query
`instanceOk()`; publish on success, otherwise discard the instance and
return `instanceResult()` as the `std::any` alternative of the variant.
`resAny a` is the `std::any` that `instanceResult()` returns on an
instance constructed with argument `a`; both `dynamic_cast`s succeed
since the overload requires `Check` and `Result` as bases of `T`. -/
def instanceCR (keepalive : Bool) (okF : Nat → Bool) (resAny : Nat → AnyVal)
    (s0 s1 : WState) (arg : Nat) : CallOutR :=
  let o := instance_impl s0 s1 arg
  if o.locked then
    match o.handle with
    | some i =>
      if okF arg then
        { ret := .handle (some i), okQueried := true, resQueried := false,
          st := { o.st with
                  weakSlot := some i,
                  keepSlot := if keepalive then some i else o.st.keepSlot } }
      else
        { ret := .failure (resAny arg), okQueried := true, resQueried := true,
          st := o.st }
    | none =>
      { ret := .handle none, okQueried := false, resQueried := false,
        st := o.st }
  else
    { ret := .handle o.handle, okQueried := false, resQueried := false,
      st := o.st }

/-- The caller stores a returned non-null handle, adding an external
strong reference to the instance. -/
def storeHandle (s : WState) (h : Option Nat) : WState :=
  match h with
  | some i => { s with extRefs := i :: s.extRefs }
  | none => s

/-- A sequential (race-free) non-`Check` `instance()` call whose returned
handle is kept by the caller. -/
def acquireNC (keepalive : Bool) (s : WState) (arg : Nat) :
    Option Nat × WState :=
  let o := instanceNC keepalive s s arg
  (o.handle, storeHandle o.st o.handle)

/-- A sequential `Check`-only `instance()` call whose returned handle (if
non-null) is kept by the caller. -/
def acquireCk (keepalive : Bool) (okF : Nat → Bool) (s : WState)
    (arg : Nat) : Option Nat × WState :=
  let o := instanceCk keepalive okF s s arg
  (o.handle, storeHandle o.st o.handle)

/-- A sequential `Check`+`Result` `instance()` call; a handle alternative
is kept by the caller, a failure alternative stores nothing. -/
def acquireCR (keepalive : Bool) (okF : Nat → Bool) (resAny : Nat → AnyVal)
    (s : WState) (arg : Nat) : CROut × WState :=
  let o := instanceCR keepalive okF resAny s s arg
  match o.ret with
  | .handle h => (o.ret, storeHandle o.st h)
  | .failure _ => (o.ret, o.st)

/-- An external caller drops one handle to instance `i`. -/
def dropHandle (s : WState) (i : Nat) : WState :=
  { s with extRefs := s.extRefs.erase i }

/-- All external callers drop all their handles. -/
def dropAllHandles (s : WState) : WState :=
  { s with extRefs := [] }

/-- States reachable from `initState` by sequential `instance()` calls
(any overload, any wrapped-type behaviour, any lifetime policy) and by
dropping handles. -/
inductive Reach : WState → Prop where
  | init : Reach initState
  | stepNC (s : WState) (k : Bool) (a : Nat) :
      Reach s → Reach (acquireNC k s a).2
  | stepCk (s : WState) (k : Bool) (okF : Nat → Bool) (a : Nat) :
      Reach s → Reach (acquireCk k okF s a).2
  | stepCR (s : WState) (k : Bool) (okF : Nat → Bool) (r : Nat → AnyVal)
      (a : Nat) : Reach s → Reach (acquireCR k okF r s a).2
  | stepDrop (s : WState) (i : Nat) : Reach s → Reach (dropHandle s i)
  | stepDropAll (s : WState) : Reach s → Reach (dropAllHandles s)

/-- Slot invariant: every live instance is the one the weak slot refers
to (so at most one instance is live at a time), and every id appearing in
the state was allocated below `nextId`. -/
def okInv (s : WState) : Prop :=
  (∀ i, aliveB s i = true → s.weakSlot = some i) ∧
  (∀ i, s.weakSlot = some i → i < s.nextId) ∧
  (∀ i, s.keepSlot = some i → i < s.nextId) ∧
  (∀ i, i ∈ s.extRefs → i < s.nextId)

theorem aliveB_iff (s : WState) (i : Nat) :
    aliveB s i = true ↔ i ∈ s.extRefs ∨ s.keepSlot = some i := by
  simp [aliveB]

theorem lockWeak_eq_some {s : WState} {i : Nat} :
    lockWeak s = some i ↔ s.weakSlot = some i ∧ aliveB s i = true := by
  unfold lockWeak
  cases hw : s.weakSlot with
  | none => simp
  | some j =>
    show (if aliveB s j = true then some j else none) = some i ↔
      some j = some i ∧ aliveB s i = true
    by_cases hj : aliveB s j = true
    · rw [if_pos hj]
      constructor
      · intro h
        obtain rfl := Option.some_inj.mp h
        exact ⟨rfl, hj⟩
      · rintro ⟨hh, _⟩
        obtain rfl := Option.some_inj.mp hh
        rfl
    · rw [if_neg hj]
      constructor
      · intro h
        exact Option.noConfusion h
      · rintro ⟨hh, ha⟩
        obtain rfl := Option.some_inj.mp hh
        exact absurd ha hj

theorem no_alive_of_lockWeak_none {s : WState}
    (hinv : ∀ i, aliveB s i = true → s.weakSlot = some i)
    (h : lockWeak s = none) : ∀ j, aliveB s j = false := by
  intro j
  by_contra hj
  rw [Bool.not_eq_false] at hj
  have hl : lockWeak s = some j := lockWeak_eq_some.mpr ⟨hinv j hj, hj⟩
  rw [h] at hl
  exact Option.noConfusion hl

theorem keepSlot_none_of_no_alive {s : WState}
    (h : ∀ j, aliveB s j = false) : s.keepSlot = none := by
  cases hk : s.keepSlot with
  | none => rfl
  | some j =>
    have hj := h j
    have : aliveB s j = true := aliveB_iff s j |>.mpr (Or.inr hk)
    rw [hj] at this
    exact Bool.noConfusion this

theorem extRefs_nil_of_no_alive {s : WState}
    (h : ∀ j, aliveB s j = false) : s.extRefs = [] := by
  cases he : s.extRefs with
  | nil => rfl
  | cons x xs =>
    have hx := h x
    rw [aliveB] at hx
    simp [he] at hx

theorem instance_impl_fast {s0 : WState} {i : Nat} (s1 : WState) (a : Nat)
    (h : lockWeak s0 = some i) :
    instance_impl s0 s1 a = ⟨some i, false, s0⟩ := by
  unfold instance_impl
  rw [h]

theorem instance_impl_race {s0 s1 : WState} {i : Nat} (a : Nat)
    (h0 : lockWeak s0 = none) (h1 : lockWeak s1 = some i) :
    instance_impl s0 s1 a = ⟨some i, false, s1⟩ := by
  unfold instance_impl
  rw [h0, h1]

theorem instance_impl_make {s0 s1 : WState} (a : Nat)
    (h0 : lockWeak s0 = none) (h1 : lockWeak s1 = none) :
    instance_impl s0 s1 a =
      ⟨some s1.nextId, true,
        { s1 with nextId := s1.nextId + 1,
                  mkLog := (s1.nextId, a) :: s1.mkLog }⟩ := by
  unfold instance_impl
  rw [h0, h1]

theorem instanceNC_fast {s0 : WState} {i : Nat} (k : Bool) (s1 : WState)
    (a : Nat) (h : lockWeak s0 = some i) :
    instanceNC k s0 s1 a = ⟨some i, false, false, s0⟩ := by
  simp [instanceNC, instance_impl_fast s1 a h]

theorem instanceNC_race {s0 s1 : WState} {i : Nat} (k : Bool) (a : Nat)
    (h0 : lockWeak s0 = none) (h1 : lockWeak s1 = some i) :
    instanceNC k s0 s1 a = ⟨some i, false, false, s1⟩ := by
  simp [instanceNC, instance_impl_race a h0 h1]

theorem instanceNC_make {s0 s1 : WState} (k : Bool) (a : Nat)
    (h0 : lockWeak s0 = none) (h1 : lockWeak s1 = none) :
    instanceNC k s0 s1 a =
      ⟨some s1.nextId, false, false,
        { s1 with weakSlot := some s1.nextId,
                  keepSlot := if k then some s1.nextId else s1.keepSlot,
                  nextId := s1.nextId + 1,
                  mkLog := (s1.nextId, a) :: s1.mkLog }⟩ := by
  simp [instanceNC, instance_impl_make a h0 h1]

theorem instanceCk_fast {s0 : WState} {i : Nat} (k : Bool)
    (okF : Nat → Bool) (s1 : WState) (a : Nat) (h : lockWeak s0 = some i) :
    instanceCk k okF s0 s1 a = ⟨some i, false, false, s0⟩ := by
  simp [instanceCk, instance_impl_fast s1 a h]

theorem instanceCk_race {s0 s1 : WState} {i : Nat} (k : Bool)
    (okF : Nat → Bool) (a : Nat)
    (h0 : lockWeak s0 = none) (h1 : lockWeak s1 = some i) :
    instanceCk k okF s0 s1 a = ⟨some i, false, false, s1⟩ := by
  simp [instanceCk, instance_impl_race a h0 h1]

theorem instanceCk_make_ok {s0 s1 : WState} {okF : Nat → Bool} {a : Nat}
    (k : Bool) (h0 : lockWeak s0 = none) (h1 : lockWeak s1 = none)
    (hok : okF a = true) :
    instanceCk k okF s0 s1 a =
      ⟨some s1.nextId, true, false,
        { s1 with weakSlot := some s1.nextId,
                  keepSlot := if k then some s1.nextId else s1.keepSlot,
                  nextId := s1.nextId + 1,
                  mkLog := (s1.nextId, a) :: s1.mkLog }⟩ := by
  simp [instanceCk, instance_impl_make a h0 h1, hok]

theorem instanceCk_make_bad {s0 s1 : WState} {okF : Nat → Bool} {a : Nat}
    (k : Bool) (h0 : lockWeak s0 = none) (h1 : lockWeak s1 = none)
    (hok : okF a = false) :
    instanceCk k okF s0 s1 a =
      ⟨none, true, false,
        { s1 with nextId := s1.nextId + 1,
                  mkLog := (s1.nextId, a) :: s1.mkLog }⟩ := by
  simp [instanceCk, instance_impl_make a h0 h1, hok]

theorem instanceCR_fast {s0 : WState} {i : Nat} (k : Bool)
    (okF : Nat → Bool) (resAny : Nat → AnyVal) (s1 : WState) (a : Nat)
    (h : lockWeak s0 = some i) :
    instanceCR k okF resAny s0 s1 a =
      ⟨.handle (some i), false, false, s0⟩ := by
  simp [instanceCR, instance_impl_fast s1 a h]

theorem instanceCR_race {s0 s1 : WState} {i : Nat} (k : Bool)
    (okF : Nat → Bool) (resAny : Nat → AnyVal) (a : Nat)
    (h0 : lockWeak s0 = none) (h1 : lockWeak s1 = some i) :
    instanceCR k okF resAny s0 s1 a =
      ⟨.handle (some i), false, false, s1⟩ := by
  simp [instanceCR, instance_impl_race a h0 h1]

theorem instanceCR_make_ok {s0 s1 : WState} {okF : Nat → Bool} {a : Nat}
    (k : Bool) (resAny : Nat → AnyVal)
    (h0 : lockWeak s0 = none) (h1 : lockWeak s1 = none)
    (hok : okF a = true) :
    instanceCR k okF resAny s0 s1 a =
      ⟨.handle (some s1.nextId), true, false,
        { s1 with weakSlot := some s1.nextId,
                  keepSlot := if k then some s1.nextId else s1.keepSlot,
                  nextId := s1.nextId + 1,
                  mkLog := (s1.nextId, a) :: s1.mkLog }⟩ := by
  simp [instanceCR, instance_impl_make a h0 h1, hok]

theorem instanceCR_make_bad {s0 s1 : WState} {okF : Nat → Bool} {a : Nat}
    (k : Bool) (resAny : Nat → AnyVal)
    (h0 : lockWeak s0 = none) (h1 : lockWeak s1 = none)
    (hok : okF a = false) :
    instanceCR k okF resAny s0 s1 a =
      ⟨.failure (resAny a), true, true,
        { s1 with nextId := s1.nextId + 1,
                  mkLog := (s1.nextId, a) :: s1.mkLog }⟩ := by
  simp [instanceCR, instance_impl_make a h0 h1, hok]

theorem okInv_init : okInv initState := by
  refine ⟨?_, ?_, ?_, ?_⟩ <;> intro i hi <;> simp [initState, aliveB] at hi

theorem okInv_store_alive {s : WState} {i : Nat} (hinv : okInv s)
    (hi : aliveB s i = true) :
    okInv { s with extRefs := i :: s.extRefs } := by
  obtain ⟨h1, h2, h3, h4⟩ := hinv
  refine ⟨?_, h2, h3, ?_⟩
  · intro j hj
    rw [aliveB_iff] at hj
    rcases hj with hj | hj
    · rcases List.mem_cons.mp hj with rfl | hj
      · exact h1 j hi
      · exact h1 j (aliveB_iff s j |>.mpr (Or.inl hj))
    · exact h1 j (aliveB_iff s j |>.mpr (Or.inr hj))
  · intro j hj
    rcases List.mem_cons.mp hj with rfl | hj
    · exact h2 j (h1 j hi)
    · exact h4 j hj

theorem okInv_publishStore {s : WState} (k : Bool) (a : Nat)
    (hkeep : s.keepSlot = none) (hext : s.extRefs = []) :
    okInv { s with weakSlot := some s.nextId,
                   keepSlot := if k then some s.nextId else s.keepSlot,
                   extRefs := s.nextId :: s.extRefs,
                   nextId := s.nextId + 1,
                   mkLog := (s.nextId, a) :: s.mkLog } := by
  refine ⟨?_, ?_, ?_, ?_⟩
  · intro j hj
    rw [aliveB_iff] at hj
    rcases hj with hj | hj
    · rcases List.mem_cons.mp hj with rfl | hj
      · rfl
      · rw [hext] at hj
        exact absurd hj (List.not_mem_nil j)
    · cases k with
      | false =>
        rw [if_neg (by simp), hkeep] at hj
        exact Option.noConfusion hj
      | true =>
        rw [if_pos rfl] at hj
        obtain rfl := Option.some_inj.mp hj
        rfl
  · intro j hj
    obtain rfl := Option.some_inj.mp hj
    exact Nat.lt_succ_self _
  · intro j hj
    cases k with
    | false =>
      rw [if_neg (by simp), hkeep] at hj
      exact Option.noConfusion hj
    | true =>
      rw [if_pos rfl] at hj
      obtain rfl := Option.some_inj.mp hj
      exact Nat.lt_succ_self _
  · intro j hj
    rcases List.mem_cons.mp hj with rfl | hj
    · exact Nat.lt_succ_self _
    · rw [hext] at hj
      exact absurd hj (List.not_mem_nil j)

theorem okInv_discard {s : WState} (a : Nat) (hinv : okInv s) :
    okInv { s with nextId := s.nextId + 1,
                   mkLog := (s.nextId, a) :: s.mkLog } := by
  obtain ⟨h1, h2, h3, h4⟩ := hinv
  refine ⟨?_, ?_, ?_, ?_⟩
  · intro j hj
    refine h1 j ?_
    rw [aliveB_iff] at hj ⊢
    exact hj
  · intro j hj
    exact Nat.lt_succ_of_lt (h2 j hj)
  · intro j hj
    exact Nat.lt_succ_of_lt (h3 j hj)
  · intro j hj
    exact Nat.lt_succ_of_lt (h4 j hj)

theorem okInv_dropHandle {s : WState} (i : Nat) (hinv : okInv s) :
    okInv (dropHandle s i) := by
  obtain ⟨h1, h2, h3, h4⟩ := hinv
  refine ⟨?_, h2, h3, ?_⟩
  · intro j hj
    rw [aliveB_iff] at hj
    refine h1 j (aliveB_iff s j |>.mpr ?_)
    rcases hj with hj | hj
    · exact Or.inl (List.mem_of_mem_erase hj)
    · exact Or.inr hj
  · intro j hj
    exact h4 j (List.mem_of_mem_erase hj)

theorem okInv_dropAll {s : WState} (hinv : okInv s) :
    okInv (dropAllHandles s) := by
  obtain ⟨h1, h2, h3, h4⟩ := hinv
  refine ⟨?_, h2, h3, ?_⟩
  · intro j hj
    rw [aliveB_iff] at hj
    rcases hj with hj | hj
    · exact absurd hj (List.not_mem_nil j)
    · exact h1 j (aliveB_iff s j |>.mpr (Or.inr hj))
  · intro j hj
    exact absurd hj (List.not_mem_nil j)

theorem reach_okInv {s : WState} (h : Reach s) : okInv s := by
  induction h with
  | init => exact okInv_init
  | stepNC s k a _ ih =>
    cases hl : lockWeak s with
    | some i =>
      have hi := (lockWeak_eq_some.mp hl).2
      simp only [acquireNC, instanceNC_fast k s a hl, storeHandle]
      exact okInv_store_alive ih hi
    | none =>
      have hdead := no_alive_of_lockWeak_none ih.1 hl
      have hkeep := keepSlot_none_of_no_alive hdead
      have hext := extRefs_nil_of_no_alive hdead
      simp only [acquireNC, instanceNC_make k a hl hl, storeHandle]
      exact okInv_publishStore k a hkeep hext
  | stepCk s k okF a _ ih =>
    cases hl : lockWeak s with
    | some i =>
      have hi := (lockWeak_eq_some.mp hl).2
      simp only [acquireCk, instanceCk_fast k okF s a hl, storeHandle]
      exact okInv_store_alive ih hi
    | none =>
      have hdead := no_alive_of_lockWeak_none ih.1 hl
      have hkeep := keepSlot_none_of_no_alive hdead
      have hext := extRefs_nil_of_no_alive hdead
      cases hok : okF a with
      | true =>
        simp only [acquireCk, instanceCk_make_ok k hl hl hok, storeHandle]
        exact okInv_publishStore k a hkeep hext
      | false =>
        simp only [acquireCk, instanceCk_make_bad k hl hl hok, storeHandle]
        exact okInv_discard a ih
  | stepCR s k okF r a _ ih =>
    cases hl : lockWeak s with
    | some i =>
      have hi := (lockWeak_eq_some.mp hl).2
      simp only [acquireCR, instanceCR_fast k okF r s a hl, storeHandle]
      exact okInv_store_alive ih hi
    | none =>
      have hdead := no_alive_of_lockWeak_none ih.1 hl
      have hkeep := keepSlot_none_of_no_alive hdead
      have hext := extRefs_nil_of_no_alive hdead
      cases hok : okF a with
      | true =>
        simp only [acquireCR, instanceCR_make_ok k r hl hl hok, storeHandle]
        exact okInv_publishStore k a hkeep hext
      | false =>
        simp only [acquireCR, instanceCR_make_bad k r hl hl hok, storeHandle]
        exact okInv_discard a ih
  | stepDrop s i _ ih => exact okInv_dropHandle i ih
  | stepDropAll s _ ih => exact okInv_dropAll ih

theorem lockWeak_congr {s t : WState} (hw : t.weakSlot = s.weakSlot)
    (he : t.extRefs = s.extRefs) (hk : t.keepSlot = s.keepSlot) :
    lockWeak t = lockWeak s := by
  unfold lockWeak aliveB
  rw [hw, he, hk]

theorem lockWeak_eq_none_of_dead {s : WState} {i : Nat}
    (hw : s.weakSlot = some i) (hd : aliveB s i = false) :
    lockWeak s = none := by
  unfold lockWeak
  rw [hw]
  simp [hd]

/-- C1: whenever the slot's weak reference resolves to a live Instance,
every `instance()` overload returns a Handle identity-equal to that
Instance, constructs no new `T` (the state, in particular the
construction log, is unchanged), and at most one live Instance exists:
every live id is that same instance. -/
theorem c1_live_fast_path_identity (k : Bool) (okF : Nat → Bool)
    (resAny : Nat → AnyVal) (s : WState) (a i : Nat)
    (hs : Reach s) (hl : lockWeak s = some i) :
    (instanceNC k s s a).handle = some i ∧ (instanceNC k s s a).st = s ∧
    (instanceCk k okF s s a).handle = some i ∧
    (instanceCk k okF s s a).st = s ∧
    (instanceCR k okF resAny s s a).ret = CROut.handle (some i) ∧
    (instanceCR k okF resAny s s a).st = s ∧
    (∀ j, aliveB s j = true → j = i) := by
  have h1 := (reach_okInv hs).1
  have hw := (lockWeak_eq_some.mp hl).1
  refine ⟨?_, ?_, ?_, ?_, ?_, ?_, ?_⟩
  · rw [instanceNC_fast k s a hl]
  · rw [instanceNC_fast k s a hl]
  · rw [instanceCk_fast k okF s a hl]
  · rw [instanceCk_fast k okF s a hl]
  · rw [instanceCR_fast k okF resAny s a hl]
  · rw [instanceCR_fast k okF resAny s a hl]
  · intro j hj
    have hj2 := h1 j hj
    rw [hw] at hj2
    exact (Option.some_inj.mp hj2).symm

/-- C1 witness: after one acquisition from the initial state the slot is
live with instance 0, and a further `instance()` call returns it. -/
theorem c1_live_fast_path_identity_witness :
    (instanceNC false (acquireNC false initState 5).2
        (acquireNC false initState 5).2 3).handle = some 0 :=
  (c1_live_fast_path_identity false (fun _ => true) (fun _ => AnyVal.aint 0)
    (acquireNC false initState 5).2 3 0
    (Reach.stepNC initState false 5 Reach.init) (by decide)).1

/-- C2: the slot fields (`weak_instance_handle_` and, under the keepalive
policy, `keepalive_handle_`) are mutated only in the branch where a
brand-new Instance was constructed under the gate and passed
`instanceOk()` (or validation was skipped, in the non-`Check` overload);
a fast-path call, a call that loses the post-lock re-check, and a call
observing a validation failure all leave both slot fields unchanged. -/
theorem c2_slot_mutated_only_by_validated_publish (k : Bool)
    (okF : Nat → Bool) (resAny : Nat → AnyVal) (s0 s1 : WState) (a : Nat) :
    (∀ i, lockWeak s0 = some i →
      (instanceNC k s0 s1 a).st = s0 ∧
      (instanceCk k okF s0 s1 a).st = s0 ∧
      (instanceCR k okF resAny s0 s1 a).st = s0) ∧
    (∀ i, lockWeak s0 = none → lockWeak s1 = some i →
      (instanceNC k s0 s1 a).st = s1 ∧
      (instanceCk k okF s0 s1 a).st = s1 ∧
      (instanceCR k okF resAny s0 s1 a).st = s1) ∧
    (lockWeak s0 = none → lockWeak s1 = none → okF a = false →
      (instanceCk k okF s0 s1 a).st.weakSlot = s1.weakSlot ∧
      (instanceCk k okF s0 s1 a).st.keepSlot = s1.keepSlot ∧
      (instanceCR k okF resAny s0 s1 a).st.weakSlot = s1.weakSlot ∧
      (instanceCR k okF resAny s0 s1 a).st.keepSlot = s1.keepSlot) ∧
    (lockWeak s0 = none → lockWeak s1 = none →
      (instanceNC k s0 s1 a).st.weakSlot = some s1.nextId ∧
      ((instanceCk k okF s0 s1 a).st.weakSlot ≠ s1.weakSlot ∨
          (instanceCk k okF s0 s1 a).st.keepSlot ≠ s1.keepSlot →
        okF a = true) ∧
      (okF a = true →
        (instanceCk k okF s0 s1 a).st.weakSlot = some s1.nextId ∧
        (instanceCR k okF resAny s0 s1 a).st.weakSlot = some s1.nextId)) := by
  refine ⟨?_, ?_, ?_, ?_⟩
  · intro i h
    rw [instanceNC_fast k s1 a h, instanceCk_fast k okF s1 a h,
      instanceCR_fast k okF resAny s1 a h]
    exact ⟨rfl, rfl, rfl⟩
  · intro i h0 h1
    rw [instanceNC_race k a h0 h1, instanceCk_race k okF a h0 h1,
      instanceCR_race k okF resAny a h0 h1]
    exact ⟨rfl, rfl, rfl⟩
  · intro h0 h1 hbad
    rw [instanceCk_make_bad k h0 h1 hbad,
      instanceCR_make_bad k resAny h0 h1 hbad]
    exact ⟨rfl, rfl, rfl, rfl⟩
  · intro h0 h1
    refine ⟨?_, ?_, ?_⟩
    · rw [instanceNC_make k a h0 h1]
    · intro hne
      cases hok : okF a with
      | true => rfl
      | false =>
        rw [instanceCk_make_bad k h0 h1 hok] at hne
        rcases hne with hne | hne <;> exact absurd rfl hne
    · intro hok
      rw [instanceCk_make_ok k h0 h1 hok,
        instanceCR_make_ok k resAny h0 h1 hok]
      exact ⟨rfl, rfl⟩

/-- C2 witness: a fast-path call against a live slot leaves the state,
and in particular both slot fields, unchanged. -/
theorem c2_slot_mutated_only_by_validated_publish_witness :
    (instanceNC false (acquireNC false initState 5).2
        (acquireNC false initState 5).2 3).st
      = (acquireNC false initState 5).2 :=
  ((c2_slot_mutated_only_by_validated_publish false (fun _ => true)
    (fun _ => AnyVal.aint 0) (acquireNC false initState 5).2
    (acquireNC false initState 5).2 3).1 0 (by decide)).1

/-- C3: for a Checkable `T` whose fresh instance reports
`instanceOk() == false`, `instance()` does not publish it (weak slot,
keepalive handle and external handles unchanged), returns an empty
Handle (Checkable-only) respectively a failure alternative
(Checkable+Result), and a subsequent call constructs again from scratch,
with a fresh id, never returning the discarded instance. -/
theorem c3_failed_validation_unpublished_retry (k : Bool)
    (okF : Nat → Bool) (resAny : Nat → AnyVal) (s : WState) (a b : Nat)
    (hdead : lockWeak s = none) (hbad : okF a = false) :
    (instanceCk k okF s s a).handle = none ∧
    (instanceCk k okF s s a).st.weakSlot = s.weakSlot ∧
    (instanceCk k okF s s a).st.keepSlot = s.keepSlot ∧
    (instanceCk k okF s s a).st.extRefs = s.extRefs ∧
    (instanceCR k okF resAny s s a).ret = CROut.failure (resAny a) ∧
    (instanceCk k okF (acquireCk k okF s a).2
        (acquireCk k okF s a).2 b).st.mkLog
      = (s.nextId + 1, b) :: (s.nextId, a) :: s.mkLog ∧
    (instanceCk k okF (acquireCk k okF s a).2
        (acquireCk k okF s a).2 b).handle ≠ some s.nextId := by
  have hs2 : (acquireCk k okF s a).2
      = { s with nextId := s.nextId + 1,
                 mkLog := (s.nextId, a) :: s.mkLog } := by
    simp only [acquireCk, instanceCk_make_bad k hdead hdead hbad, storeHandle]
  have hdead2 : lockWeak (acquireCk k okF s a).2 = none := by
    rw [hs2, lockWeak_congr rfl rfl rfl]
    exact hdead
  refine ⟨?_, ?_, ?_, ?_, ?_, ?_, ?_⟩
  · rw [instanceCk_make_bad k hdead hdead hbad]
  · rw [instanceCk_make_bad k hdead hdead hbad]
  · rw [instanceCk_make_bad k hdead hdead hbad]
  · rw [instanceCk_make_bad k hdead hdead hbad]
  · rw [instanceCR_make_bad k resAny hdead hdead hbad]
  · cases hok : okF b with
    | true =>
      rw [instanceCk_make_ok k hdead2 hdead2 hok, hs2]
    | false =>
      rw [instanceCk_make_bad k hdead2 hdead2 hok, hs2]
  · cases hok : okF b with
    | true =>
      rw [instanceCk_make_ok k hdead2 hdead2 hok, hs2]
      intro hco
      have := Option.some_inj.mp hco
      simp at this
    | false =>
      rw [instanceCk_make_bad k hdead2 hdead2 hok]
      intro hco
      exact Option.noConfusion hco

/-- C3 witness: from the initial state, an always-invalid type yields an
empty Handle and a retry constructs instance 1, not the discarded
instance 0. -/
theorem c3_failed_validation_unpublished_retry_witness :
    (instanceCk false (fun _ => false) initState initState 4).handle
      = none ∧
    (instanceCk false (fun _ => false)
        (acquireCk false (fun _ => false) initState 4).2
        (acquireCk false (fun _ => false) initState 4).2 6).st.mkLog
      = [(1, 6), (0, 4)] :=
  ⟨(c3_failed_validation_unpublished_retry false (fun _ => false)
      (fun _ => AnyVal.aint 0) initState 4 6 rfl rfl).1,
   (c3_failed_validation_unpublished_retry false (fun _ => false)
      (fun _ => AnyVal.aint 0) initState 4 6 rfl rfl).2.2.2.2.2.1⟩

/-- C4: for a Checkable+Result-bearing `T`, the `std::any` payload of the
failure alternative, unwrapped via `CheckWithResult<R>::getResultValue`,
equals exactly the value `instanceResultValue()` returned on the failed
instance: the round trip through the type erasure is lossless. -/
theorem c4_failure_payload_roundtrip (k : Bool) (okF : Nat → Bool)
    (τ : Ty) (resF : Nat → τ.interp) (s : WState) (a : Nat)
    (hdead : lockWeak s = none) (hbad : okF a = false) :
    (instanceCR k okF
        (fun x => CheckWithResult.instanceResult τ (resF x)) s s a).ret
      = CROut.failure (CheckWithResult.instanceResult τ (resF a)) ∧
    CheckWithResult.getResultValue τ
        (CheckWithResult.instanceResult τ (resF a))
      = Except.ok (resF a) := by
  constructor
  · rw [instanceCR_make_bad k
      (fun x => CheckWithResult.instanceResult τ (resF x)) hdead hdead hbad]
  · cases τ <;> rfl

/-- C4 witness: the spec's concrete scenario, result code 7 of type int:
the failure payload unwraps to exactly 7. -/
theorem c4_failure_payload_roundtrip_witness :
    (instanceCR false (fun _ => false)
        (fun x => CheckWithResult.instanceResult Ty.tint
          ((fun _ => (7 : Int)) x)) initState initState 0).ret
      = CROut.failure (CheckWithResult.instanceResult Ty.tint (7 : Int)) ∧
    CheckWithResult.getResultValue Ty.tint
        (CheckWithResult.instanceResult Ty.tint (7 : Int))
      = Except.ok (7 : Int) :=
  c4_failure_payload_roundtrip false (fun _ => false) Ty.tint
    (fun _ => (7 : Int)) initState 0 rfl rfl

/-- C5: under the default external-lifetime policy (`keepalive = false`,
keepalive handle null), once every external Handle is dropped the
Instance is destroyed (no longer alive), and the next `instance(args...)`
call takes the slow path and constructs a genuinely new Instance from the
supplied arguments, with an id distinct from the destroyed one. -/
theorem c5_external_lifetime_reconstructs (s : WState) (i a : Nat)
    (hs : Reach s) (hk : s.keepSlot = none) (hw : s.weakSlot = some i) :
    aliveB (dropAllHandles s) i = false ∧
    lockWeak (dropAllHandles s) = none ∧
    (instanceNC false (dropAllHandles s) (dropAllHandles s) a).handle
      = some s.nextId ∧
    s.nextId ≠ i ∧
    (instanceNC false (dropAllHandles s) (dropAllHandles s) a).st.mkLog
      = (s.nextId, a) :: s.mkLog ∧
    (instanceNC false (dropAllHandles s) (dropAllHandles s) a).st.weakSlot
      = some s.nextId := by
  have hal : aliveB (dropAllHandles s) i = false := by
    simp [dropAllHandles, aliveB, hk]
  have hlw : lockWeak (dropAllHandles s) = none :=
    lockWeak_eq_none_of_dead (show (dropAllHandles s).weakSlot = some i from hw)
      hal
  have hbd := (reach_okInv hs).2.1 i hw
  refine ⟨hal, hlw, ?_, ?_, ?_, ?_⟩
  · rw [instanceNC_make false a hlw hlw]
    rfl
  · exact Nat.ne_of_gt hbd
  · rw [instanceNC_make false a hlw hlw]
    rfl
  · rw [instanceNC_make false a hlw hlw]
    rfl

/-- C5 witness: instance 0 is acquired and published, all handles are
dropped, and the next call constructs the distinct instance 1. -/
theorem c5_external_lifetime_reconstructs_witness :
    (instanceNC false (dropAllHandles (acquireNC false initState 5).2)
        (dropAllHandles (acquireNC false initState 5).2) 9).handle
      = some 1 ∧
    (1 : Nat) ≠ 0 :=
  ⟨(c5_external_lifetime_reconstructs (acquireNC false initState 5).2 0 9
      (Reach.stepNC initState false 5 Reach.init) rfl rfl).2.2.1,
   (c5_external_lifetime_reconstructs (acquireNC false initState 5).2 0 9
      (Reach.stepNC initState false 5 Reach.init) rfl rfl).2.2.2.1⟩

/-- C6: under the process-keepalive policy, after the first successful
construction the wrapper holds a permanent strong owner
(`keepalive_handle_` is set to the fresh instance on every slow-path
construction), so dropping all external Handles leaves the Instance
alive, and every subsequent `instance()` call of any overload returns a
Handle identity-equal to it without touching the state. -/
theorem c6_keepalive_pins_instance (okF : Nat → Bool)
    (resAny : Nat → AnyVal) (s : WState) (i a : Nat)
    (hk : s.keepSlot = some i) (hw : s.weakSlot = some i) :
    aliveB (dropAllHandles s) i = true ∧
    lockWeak (dropAllHandles s) = some i ∧
    (instanceNC true (dropAllHandles s) (dropAllHandles s) a).handle
      = some i ∧
    (instanceNC true (dropAllHandles s) (dropAllHandles s) a).st
      = dropAllHandles s ∧
    (instanceCk true okF (dropAllHandles s) (dropAllHandles s) a).handle
      = some i ∧
    (instanceCR true okF resAny (dropAllHandles s)
        (dropAllHandles s) a).ret = CROut.handle (some i) ∧
    (∀ t b, lockWeak t = none →
      (instanceNC true t t b).st.keepSlot = some t.nextId) := by
  have hal : aliveB (dropAllHandles s) i = true := by
    simp [dropAllHandles, aliveB, hk]
  have hlw : lockWeak (dropAllHandles s) = some i :=
    lockWeak_eq_some.mpr
      ⟨show (dropAllHandles s).weakSlot = some i from hw, hal⟩
  refine ⟨hal, hlw, ?_, ?_, ?_, ?_, ?_⟩
  · rw [instanceNC_fast true (dropAllHandles s) a hlw]
  · rw [instanceNC_fast true (dropAllHandles s) a hlw]
  · rw [instanceCk_fast true okF (dropAllHandles s) a hlw]
  · rw [instanceCR_fast true okF resAny (dropAllHandles s) a hlw]
  · intro t b ht
    rw [instanceNC_make true b ht ht]
    rfl

/-- C6 witness: with keepalive, instance 0 survives dropping all external
handles and is returned again by the next call. -/
theorem c6_keepalive_pins_instance_witness :
    aliveB (dropAllHandles (acquireNC true initState 5).2) 0 = true ∧
    (instanceNC true (dropAllHandles (acquireNC true initState 5).2)
        (dropAllHandles (acquireNC true initState 5).2) 9).handle
      = some 0 :=
  ⟨(c6_keepalive_pins_instance (fun _ => true) (fun _ => AnyVal.aint 0)
      (acquireNC true initState 5).2 0 9 rfl rfl).1,
   (c6_keepalive_pins_instance (fun _ => true) (fun _ => AnyVal.aint 0)
      (acquireNC true initState 5).2 0 9 rfl rfl).2.2.1⟩

/-- C7: the Check+Result overload invokes `instanceResult()` (and hence
`instanceResultValue()`) exactly in executions that constructed a new
Instance under the gate whose `instanceOk()` returned false; it is never
invoked on a fast-path hit, after the post-lock re-check, after a
successful validation, nor by the other two overloads. -/
theorem c7_result_queried_only_on_failed_check (k : Bool)
    (okF : Nat → Bool) (resAny : Nat → AnyVal) (s0 s1 : WState) (a : Nat) :
    ((instanceCR k okF resAny s0 s1 a).resQueried = true ↔
      lockWeak s0 = none ∧ lockWeak s1 = none ∧ okF a = false) ∧
    (instanceNC k s0 s1 a).resQueried = false ∧
    (instanceCk k okF s0 s1 a).resQueried = false := by
  cases hl0 : lockWeak s0 with
  | some i =>
    rw [instanceCR_fast k okF resAny s1 a hl0,
      instanceNC_fast k s1 a hl0, instanceCk_fast k okF s1 a hl0]
    simp [hl0]
  | none =>
    cases hl1 : lockWeak s1 with
    | some i =>
      rw [instanceCR_race k okF resAny a hl0 hl1,
        instanceNC_race k a hl0 hl1, instanceCk_race k okF a hl0 hl1]
      simp [hl1]
    | none =>
      cases hok : okF a with
      | true =>
        rw [instanceCR_make_ok k resAny hl0 hl1 hok,
          instanceNC_make k a hl0 hl1, instanceCk_make_ok k hl0 hl1 hok]
        simp [hok]
      | false =>
        rw [instanceCR_make_bad k resAny hl0 hl1 hok,
          instanceNC_make k a hl0 hl1, instanceCk_make_bad k hl0 hl1 hok]
        simp [hl0, hl1, hok]

/-- C8: unwrapping a validation-failure payload as a result type
different from the one actually stored makes `getResultValue` throw
`std::bad_any_cast` (modelled as `Except.error`); it never silently
returns a value. -/
theorem c8_wrong_type_unwrap_throws (τ : Ty) (p : AnyVal)
    (h : p.tag ≠ τ) :
    CheckWithResult.getResultValue τ p = Except.error () ∧
    ∀ v, CheckWithResult.getResultValue τ p ≠ Except.ok v := by
  have he : CheckWithResult.getResultValue τ p = Except.error () := by
    cases τ <;> cases p <;> first | rfl | exact absurd rfl h
  refine ⟨he, ?_⟩
  intro v hv
  rw [he] at hv
  exact Except.noConfusion hv

/-- C8 witness: a payload holding the int 7, unwrapped as a string,
throws rather than producing a value. -/
theorem c8_wrong_type_unwrap_throws_witness :
    CheckWithResult.getResultValue Ty.tstr (AnyVal.aint 7)
      = Except.error () :=
  (c8_wrong_type_unwrap_throws Ty.tstr (AnyVal.aint 7) (by decide)).1

/-- C9: the non-`Check` overload of `instance()` never returns a null
Handle: on every path the returned handle is non-empty, and once the
caller stores it the referenced Instance is live. -/
theorem c9_nonvalidating_never_null (k : Bool) (s0 s1 s : WState)
    (a : Nat) :
    (instanceNC k s0 s1 a).handle.isSome = true ∧
    (acquireNC k s a).1.isSome = true ∧
    aliveB (acquireNC k s a).2 ((acquireNC k s a).1.getD 0) = true := by
  constructor
  · cases hl0 : lockWeak s0 with
    | some i =>
      rw [instanceNC_fast k s1 a hl0]
      rfl
    | none =>
      cases hl1 : lockWeak s1 with
      | some i =>
        rw [instanceNC_race k a hl0 hl1]
        rfl
      | none =>
        rw [instanceNC_make k a hl0 hl1]
        rfl
  · cases hl : lockWeak s with
    | some i =>
      simp only [acquireNC, instanceNC_fast k s a hl, storeHandle]
      constructor
      · rfl
      · simp [aliveB]
    | none =>
      simp only [acquireNC, instanceNC_make k a hl hl, storeHandle]
      constructor
      · rfl
      · simp [aliveB]

/-- C10: `instanceOk()` is consulted exactly on the call that constructed
a new Instance (both weak-reference checks failed and the gate was
returned locked); a call resolving an already-published live Instance via
the fast path neither re-invokes `instanceOk()` nor depends on it — the
Instance is returned as a success even under a validity function that is
now false everywhere. -/
theorem c10_check_only_at_construction (k : Bool) (okF okF2 : Nat → Bool)
    (resAny : Nat → AnyVal) (s0 s1 : WState) (a : Nat) :
    ((instanceCk k okF s0 s1 a).okQueried = true ↔
      lockWeak s0 = none ∧ lockWeak s1 = none) ∧
    ((instanceCR k okF resAny s0 s1 a).okQueried = true ↔
      lockWeak s0 = none ∧ lockWeak s1 = none) ∧
    (∀ i, lockWeak s0 = some i →
      (instanceCk k okF s0 s1 a).handle = some i ∧
      (instanceCk k okF s0 s1 a).okQueried = false ∧
      instanceCk k okF s0 s1 a = instanceCk k okF2 s0 s1 a ∧
      (instanceCR k okF resAny s0 s1 a).ret = CROut.handle (some i)) := by
  refine ⟨?_, ?_, ?_⟩
  · cases hl0 : lockWeak s0 with
    | some i =>
      rw [instanceCk_fast k okF s1 a hl0]
      simp [hl0]
    | none =>
      cases hl1 : lockWeak s1 with
      | some i =>
        rw [instanceCk_race k okF a hl0 hl1]
        simp [hl1]
      | none =>
        cases hok : okF a with
        | true =>
          rw [instanceCk_make_ok k hl0 hl1 hok]
          simp [hl0, hl1]
        | false =>
          rw [instanceCk_make_bad k hl0 hl1 hok]
          simp [hl0, hl1]
  · cases hl0 : lockWeak s0 with
    | some i =>
      rw [instanceCR_fast k okF resAny s1 a hl0]
      simp [hl0]
    | none =>
      cases hl1 : lockWeak s1 with
      | some i =>
        rw [instanceCR_race k okF resAny a hl0 hl1]
        simp [hl1]
      | none =>
        cases hok : okF a with
        | true =>
          rw [instanceCR_make_ok k resAny hl0 hl1 hok]
          simp [hl0, hl1]
        | false =>
          rw [instanceCR_make_bad k resAny hl0 hl1 hok]
          simp [hl0, hl1]
  · intro i h
    rw [instanceCk_fast k okF s1 a h, instanceCk_fast k okF2 s1 a h,
      instanceCR_fast k okF resAny s1 a h]
    exact ⟨rfl, rfl, rfl, rfl⟩

/-- C10 witness: instance 0 is published and alive; a later call under a
validity function that is false everywhere still returns instance 0 as a
success without consulting it. -/
theorem c10_check_only_at_construction_witness :
    (instanceCk false (fun _ => false) (acquireNC false initState 5).2
        (acquireNC false initState 5).2 3).handle = some 0 ∧
    (instanceCk false (fun _ => false) (acquireNC false initState 5).2
        (acquireNC false initState 5).2 3).okQueried = false :=
  ⟨((c10_check_only_at_construction false (fun _ => false) (fun _ => true)
      (fun _ => AnyVal.aint 0) (acquireNC false initState 5).2
      (acquireNC false initState 5).2 3).2.2 0 (by decide)).1,
   ((c10_check_only_at_construction false (fun _ => false) (fun _ => true)
      (fun _ => AnyVal.aint 0) (acquireNC false initState 5).2
      (acquireNC false initState 5).2 3).2.2 0 (by decide)).2.1⟩

end SingletonSpec
